import Mathlib

/-!
Verification development for the scroll-driven animation coordinator and the
auxiliary canvas renderers of the projectBirtedi page (src/unnamed/part_000).

Numbers are embedded as rationals (JavaScript arithmetic on the values involved
is modelled exactly by field arithmetic; no overflow or rounding is relevant at
the magnitudes used).  Calls to Math.sin and Math.sqrt are modelled by explicit
oracle parameters, since their values are irrational in general; every theorem
below quantifies over the oracle, so it holds for the real sine/sqrt values.
-/

/- Animation ranges (source lines 2144-2151): each range is the scroll window
during which the named transition happens. -/
namespace ANIMATION_RANGES

def initialToAbsorb : ℚ × ℚ := (0, 0.15)

def absorbToRelease : ℚ × ℚ := (0.15, 0.25)

def releaseToFloat : ℚ × ℚ := (0.25, 0.35)

def floatToFall : ℚ × ℚ := (0.35, 0.45)

def fallToExpand : ℚ × ℚ := (0.45, 0.55)

def expandToFinal : ℚ × ℚ := (0.55, 0.65)

end ANIMATION_RANGES

/-- normalizeProgress (lines 2154-2156): clamped linear progress of `current`
through the interval [min, max]. -/
def normalizeProgress (current min max : ℚ) : ℚ :=
  Min.min 1 (Max.max 0 ((current - min) / (max - min)))

/-- easeInOutCubic (lines 2159-2161). -/
def easeInOutCubic (x : ℚ) : ℚ :=
  if x < 0.5 then 4 * x * x * x else 1 - (-2 * x + 2) ^ 3 / 2

/-- easeOutQuint (lines 2163-2165). -/
def easeOutQuint (x : ℚ) : ℚ := 1 - (1 - x) ^ 5

/-- easeInQuint (lines 2167-2169). -/
def easeInQuint (x : ℚ) : ℚ := x * x * x * x * x

/-- The stage classifier (lines 2247-2253).  Stages are the numeric codes used
by the source: 0 Initial, 1 Absorb, 2 Release, 3 Float, 4 Fall, 5 Expand,
6 Final. -/
def calculateStage (interpolatedScroll : ℚ) (canExpand : Bool) : ℕ :=
  if interpolatedScroll < ANIMATION_RANGES.initialToAbsorb.2 then 0
  else if interpolatedScroll < ANIMATION_RANGES.absorbToRelease.2 then 1
  else if interpolatedScroll < ANIMATION_RANGES.releaseToFloat.2 then 2
  else if interpolatedScroll < ANIMATION_RANGES.floatToFall.2 then 3
  else if canExpand = false ∨ interpolatedScroll < ANIMATION_RANGES.fallToExpand.2 then 4
  else if interpolatedScroll < ANIMATION_RANGES.expandToFinal.2 then 5
  else 6

/-- Fall sub-progress shown during the Fall stage (lines 2317-2321): the raw
fall progress, capped at 0.95 while the expand permission has not been
granted. -/
def displayFallProgress (interpolatedScroll : ℚ) (canExpand : Bool) : ℚ :=
  let fallProgress := normalizeProgress interpolatedScroll
    ANIMATION_RANGES.floatToFall.1 ANIMATION_RANGES.floatToFall.2
  if canExpand = false ∧ fallProgress > 0.95 then 0.95 else fallProgress

/-- Background colour of the square during expansion (lines 2283-2285):
red channel 255*(1-progress) floored at 0, green and blue fixed at 0. -/
def expandBackgroundColor (easedExpansionProgress : ℚ) : ℚ × ℚ × ℚ :=
  (Max.max 0 (255 * (1 - easedExpansionProgress)), 0, 0)

/-!
## Fall-timer trace semantics

The component keeps `fallStartTime : number | null` and `canExpand : boolean`.
Three effects manipulate them (lines 2196-2228):

* when `interpolatedScroll >= floatToFall[0]` and the timer is unset it is set
  to `Date.now()`; when the scroll drops below `floatToFall[0]` with the timer
  set, the timer is cleared and `canExpand` is reset to `false`;
* whenever the timer is (re)set to `t`, `checkFallDuration` runs once
  immediately (elapsed 0 < 1000, so it schedules a re-check via `setTimeout`
  for time `t + 1000`); when that timeout fires, the closure re-reads the
  *captured* start `t`, finds elapsed ≥ 1000 and sets `canExpand := true`.
  The effect has no cleanup, so pending timeouts survive a timer clear: they
  are recorded in `pending` as their fire times and unconditionally grant the
  expand permission when they fire.
-/

structure FallState where
  fallStartTime : Option ℚ
  canExpand : Bool
  pending : List ℚ
deriving DecidableEq, Repr

def initFallState : FallState := ⟨none, false, []⟩

/-- Fire every scheduled `checkFallDuration` timeout that is due at `now`
(lines 2209-2228; each due timeout sets `canExpand := true`). -/
def firePending (st : FallState) (now : ℚ) : FallState :=
  { st with
    canExpand := st.canExpand || st.pending.any (fun tf => decide (tf ≤ now)),
    pending := st.pending.filter (fun tf => decide (now < tf)) }

/-- The fall-timer effect (lines 2196-2206), plus the synchronous
`checkFallDuration` call made when the timer is set (which always schedules a
re-check at `now + 1000`, since elapsed is 0 at that point). -/
def fallTimerEffect (st : FallState) (now s : ℚ) : FallState :=
  if ANIMATION_RANGES.floatToFall.1 ≤ s ∧ st.fallStartTime = none then
    { st with fallStartTime := some now, pending := st.pending ++ [now + 1000] }
  else if s < ANIMATION_RANGES.floatToFall.1 ∧ st.fallStartTime ≠ none then
    { st with fallStartTime := none, canExpand := false }
  else st

/-- One frame at wall-clock time `now` with interpolated scroll `s`:
due timeouts fire, then the scroll-driven effects run. -/
def stepFrame (st : FallState) (now s : ℚ) : FallState :=
  fallTimerEffect (firePending st now) now s

/-- Run a list of frames `(now, scroll)`, recording after each frame the
resulting state together with the frame's time and scroll value. -/
def runTrace (st : FallState) : List (ℚ × ℚ) → List (FallState × ℚ × ℚ)
  | [] => []
  | (now, s) :: rest =>
      let st' := stepFrame st now s
      (st', now, s) :: runTrace st' rest

/-- The stage emitted at each frame of a trace (the classifier applied to the
frame's scroll and the post-frame expand permission). -/
def stagesOf (events : List (ℚ × ℚ)) : List ℕ :=
  (runTrace initFallState events).map (fun e => calculateStage e.2.2 e.1.canExpand)

/-- Reachability invariant of the fall-timer state along a trace whose last
frame had time `tcur` and scroll `scur`, for scroll histories that never
dropped below the float-to-fall threshold after setting the timer:
the timer records a past instant and implies the threshold has been reached;
every pending timeout belongs to the current timer; the expand permission
certifies a 1000ms dwell. -/
def FallInv (st : FallState) (tcur scur : ℚ) : Prop :=
  (∀ t, st.fallStartTime = some t → t ≤ tcur ∧ ANIMATION_RANGES.floatToFall.1 ≤ scur) ∧
  (∀ tf ∈ st.pending, ∃ t, st.fallStartTime = some t ∧ tf = t + 1000) ∧
  (st.canExpand = true → ∃ t, st.fallStartTime = some t ∧ t + 1000 ≤ tcur)

/-!
## Per-frame transform computation (TransformApplier)

`calculateStages` (lines 2230-2397) writes imperative style updates for the
animated square and the small logo, and `animateEffects` (lines 2400-2421) is
the continuous animation-frame callback layered on top.  Styles are modelled
as records; the CSS transform string is modelled by the `SquareTransform`
inductive (`translateZ(0)` alone, `rotate(r deg) translateZ(0)`, or
`translateY(y) translateZ(0)`).  `animateEffects` in the Fall stage parses the
current rotation back out of the transform string; `rotateDeg` records that
value exactly.
-/

inductive SquareTransform where
  | plain : SquareTransform
  | rotateDeg : ℚ → SquareTransform
  | translateY : ℚ → SquareTransform
deriving DecidableEq, Repr

structure SquareStyle where
  width : ℚ
  height : ℚ
  left : ℚ
  top : ℚ
  bgRed : ℚ
  bgGreen : ℚ
  bgBlue : ℚ
  transform : SquareTransform
  opacity : ℚ
  videoOpacity : ℚ
  shadowY : ℚ
  shadowAlpha : ℚ
deriving DecidableEq, Repr

structure SmallLogoStyle where
  scaleFactor : ℚ
  opacity : ℚ
deriving DecidableEq, Repr

/-- The style-application part of `calculateStages` (lines 2258-2393), as a
function of the inputs read by the source: the sine oracle (`sinq x` stands
for Math.sin(x) and `sinPiMul x` for Math.sin(x * Math.PI)), the current time
(Date.now()), viewport size, logo scale, interpolated and previous scroll,
the expand permission and the current animation stage.  The prior styles are
taken as input because branches not matching the stage leave them in place. -/
def calculateStagesStyle (sinq sinPiMul : ℚ → ℚ)
    (now innerWidth innerHeight scale interpolatedScroll previousScrollProgress : ℚ)
    (canExpand : Bool) (animationStage : ℕ)
    (sq : SquareStyle) (sm : SmallLogoStyle) : SquareStyle × SmallLogoStyle :=
  let absorbProgress := normalizeProgress interpolatedScroll
    ANIMATION_RANGES.initialToAbsorb.1 ANIMATION_RANGES.initialToAbsorb.2
  let expandProgress := if canExpand then
    normalizeProgress interpolatedScroll
      ANIMATION_RANGES.fallToExpand.1 ANIMATION_RANGES.fallToExpand.2 else 0
  let finalProgress := if canExpand then
    normalizeProgress interpolatedScroll
      ANIMATION_RANGES.expandToFinal.1 ANIMATION_RANGES.expandToFinal.2 else 0
  let sq := if 2 ≤ animationStage ∧ animationStage ≤ 5 then
      { sq with opacity := 1 }
    else sq
  let sq :=
    if 5 ≤ animationStage ∧ canExpand = true then
      let expansionProgress := if animationStage = 5 then expandProgress else finalProgress
      let easedExpansionProgress := easeOutQuint expansionProgress
      let width := 64 + easedExpansionProgress * (innerWidth - 64)
      let height := 64 + easedExpansionProgress * (innerHeight - 64)
      let left := (innerWidth - width) / 2
      let startTop := innerHeight * 0.6
      let endTop := (innerHeight - height) / 2
      let top := startTop + easedExpansionProgress * (endTop - startTop)
      let color := expandBackgroundColor easedExpansionProgress
      let videoOpacity := if easedExpansionProgress > 0.7 then
          easeInOutCubic (Min.min 1 ((easedExpansionProgress - 0.7) * 3.33)) else 0
      { sq with width := width, height := height, left := left, top := top,
                bgRed := color.1, bgGreen := color.2.1, bgBlue := color.2.2,
                transform := SquareTransform.plain, videoOpacity := videoOpacity }
    else sq
  let sq :=
    if animationStage = 4 then
      let startY : ℚ := 96
      let endY := innerHeight * 0.6
      let dfp := displayFallProgress interpolatedScroll canExpand
      let easedProgress := easeInQuint dfp
      let currentY := startY + easedProgress * (endY - startY)
      let rotationAngle := 8 * sinPiMul dfp
      let rotationDirection : ℚ :=
        if previousScrollProgress > interpolatedScroll then -1 else 1
      let rotation := rotationDirection * rotationAngle
      { sq with width := 64, height := 64, top := currentY,
                transform := SquareTransform.rotateDeg rotation,
                left := innerWidth * 0.4, bgRed := 220, bgGreen := 38, bgBlue := 38,
                shadowY := easedProgress * 20, shadowAlpha := easedProgress * 0.3 }
    else sq
  let sq :=
    if animationStage = 2 ∨ animationStage = 3 then
      let base := { sq with
        width := (64 : ℚ),
        height := (64 : ℚ),
        left := innerWidth * 0.4,
        top := (96 : ℚ),
        bgRed := (220 : ℚ),
        bgGreen := (38 : ℚ),
        bgBlue := (38 : ℚ),
        shadowY := (5 : ℚ),
        shadowAlpha := (0.1 : ℚ) }
      if animationStage = 3 then
        let floatTime := now / 500
        let primaryWave := sinq floatTime * 8
        let secondaryWave := sinq (floatTime * 1.5) * 2
        { base with transform := SquareTransform.translateY (primaryWave + secondaryWave) }
      else
        { base with transform := SquareTransform.plain }
    else sq
  let sm :=
    if animationStage = 0 then
      { sm with scaleFactor := Max.max 0.3 scale, opacity := 1 }
    else if animationStage = 1 then
      let easedAbsorbProgress := easeInOutCubic absorbProgress
      { sm with scaleFactor := Max.max 0.01 ((1 - easedAbsorbProgress) * scale),
                opacity := 1 - easedAbsorbProgress }
    else
      { sm with opacity := 0, scaleFactor := 0 }
  let sq :=
    if animationStage < 2 then
      { sq with width := 0, height := 0, opacity := 0,
                transform := SquareTransform.plain }
    else sq
  (sq, sm)

/-- The continuous-effects frame callback `animateEffects` (lines 2400-2421).
In the Float stage it writes an absolute translateY; in the Fall stage it
reads the rotation back out of the current transform (parseFloat over the
stripped transform string) and adds a wobble increment to it. -/
def animateEffects (sinq : ℚ → ℚ) (now : ℚ) (animationStage : ℕ)
    (sq : SquareStyle) : SquareStyle :=
  if animationStage = 3 then
    let floatTime := now / 500
    let primaryWave := sinq floatTime * 8
    let secondaryWave := sinq (floatTime * 1.5) * 2
    { sq with transform := SquareTransform.translateY (primaryWave + secondaryWave) }
  else if animationStage = 4 then
    match sq.transform with
    | SquareTransform.rotateDeg base =>
        let rotationAmount := sinq (now / 200) * 1.5
        { sq with transform := SquareTransform.rotateDeg (base + rotationAmount * 0.1) }
    | _ => sq
  else sq

/-!
## Ambient particle field (ParticlesCanvas, lines 146-268)
-/

structure Particle where
  x : ℚ
  y : ℚ
  size : ℚ
  speedX : ℚ
  speedY : ℚ
  opacity : ℚ
  hue : ℚ
deriving DecidableEq, Repr

/-- The two sequential boundary checks of lines 221-225, for one coordinate:
`if (v < 0) v = limit; if (v > limit) v = 0;`. -/
def wrapCoord (limit v : ℚ) : ℚ :=
  let v1 := if v < 0 then limit else v
  if v1 > limit then 0 else v1

/-- One integration step for one particle (lines 201-225): mouse-proximity
repulsion, scroll drift, velocity update, then the boundary checks.  `dist`
is the value Math.sqrt(dx*dx + dy*dy) computed by the source; it is passed as
an oracle argument. -/
def updateParticle (mouseX mouseY dist scrollProgress w h : ℚ) (p : Particle) : Particle :=
  let dx := mouseX - p.x
  let dy := mouseY - p.y
  let mouseRadius : ℚ := 100
  let mouseStrength : ℚ := 1
  let scrollEffect := scrollProgress * 5
  let p1 : Particle := if dist < mouseRadius then
      let influence := 1 - dist / mouseRadius
      { p with x := p.x - dx * influence * mouseStrength * 0.05,
               y := p.y - dy * influence * mouseStrength * 0.05 }
    else p
  let p2 : Particle := { p1 with y := p1.y + scrollEffect * 0.1 }
  let p3 : Particle := { p2 with x := p2.x + p.speedX, y := p2.y + p.speedY }
  { p3 with x := wrapCoord w p3.x, y := wrapCoord h p3.y }

/-!
## Portal renderer and WebGL grid setup (error handling, C8)

The drawing work of one portal frame (lines 1329-1418) is abstracted as the
list of canvas commands it issues; the guards at the head of
`startSimulation` (lines 1319-1323) and of the WebGL initialisation effect
(lines 722-777) are modelled exactly.  Neither path contains a throw: every
failure is an early return (for WebGL, after a console.error), so the
embedding returns plain values.
-/

inductive DrawCmd where
  | clearRect : DrawCmd
  | backgroundGradient : DrawCmd
  | noiseDot : DrawCmd
  | floatingObject : DrawCmd
  | connectingLine : DrawCmd
  | ripple : DrawCmd
  | dustParticle : DrawCmd
  | particleDot : DrawCmd
  | particleLine : DrawCmd
deriving DecidableEq, Repr

/-- The canvas commands issued by one frame of the ParticlesCanvas animation
loop (lines 193-249): clear, then for each particle a filled circle followed
by a connecting line to every particle closer than 100px (the inner forEach
runs over the whole array, so the particle's zero-distance line to itself is
included, as in the source).  `distOracle` stands for the Math.sqrt distance
computed at lines 237-239. -/
def particlesFrameDraws (distOracle : Particle → Particle → ℚ)
    (ps : List Particle) : List DrawCmd :=
  DrawCmd.clearRect :: ps.flatMap (fun p =>
    DrawCmd.particleDot ::
      (ps.filter (fun q => decide (distOracle p q < 100))).map
        (fun _ => DrawCmd.particleLine))

/-- The animation-loop effect of ParticlesCanvas (lines 187-259): it returns
without starting the render loop when the canvas ref is missing, a canvas
dimension is zero (falsy), or the 2D context cannot be acquired; otherwise
each frame issues the particle draw commands. -/
def particlesAnimate (hasCanvas : Bool) (width height : ℚ) (has2dContext : Bool)
    (distOracle : Particle → Particle → ℚ) (ps : List Particle) : List DrawCmd :=
  if hasCanvas = false ∨ width = 0 ∨ height = 0 then []
  else if has2dContext = false then []
  else particlesFrameDraws distOracle ps

/-- The canvas commands issued by one frame of the portal animation
(lines 1336-1415). -/
def portalFrameDraws (mouseInsidePortal : Bool) : List DrawCmd :=
  [DrawCmd.clearRect, DrawCmd.backgroundGradient]
    ++ List.replicate 5000 DrawCmd.noiseDot
    ++ (List.range 20).flatMap (fun i =>
        DrawCmd.floatingObject :: (if 0 < i then [DrawCmd.connectingLine] else []))
    ++ (if mouseInsidePortal then [DrawCmd.ripple] else [])
    ++ List.replicate 50 DrawCmd.dustParticle

/-- `startSimulation` (lines 1319-1421): returns without drawing when the
canvas ref or its 2D context is unavailable. -/
def startSimulation (hasCanvas has2dContext mouseInsidePortal : Bool) : List DrawCmd :=
  if hasCanvas = false then []
  else if has2dContext = false then []
  else portalFrameDraws mouseInsidePortal

structure WebglInitResult where
  logs : List String
  ready : Bool
deriving DecidableEq, Repr

/-- The guard chain of the WebGL initialisation effect of AudioReactiveGrid
(lines 722-777): each failure logs a diagnostic and returns early, leaving the
renderer unready; only full success yields a ready renderer with no logs. -/
def webglInit (hasGl shadersCreated vertexCompiled fragmentCompiled
    programCreated linkOk : Bool) : WebglInitResult :=
  if hasGl = false then ⟨["WebGL not supported"], false⟩
  else if shadersCreated = false then ⟨["Could not create shaders"], false⟩
  else if vertexCompiled = false then ⟨["Vertex shader compilation failed"], false⟩
  else if fragmentCompiled = false then ⟨["Fragment shader compilation failed"], false⟩
  else if programCreated = false then ⟨["Could not create program"], false⟩
  else if linkOk = false then ⟨["Program linking failed"], false⟩
  else ⟨[], true⟩

/-- The animation-loop effect of AudioReactiveGrid (lines 893-977) returns
immediately when the stored gl context or program is missing, issuing no draw
calls; otherwise each frame draws the grid. -/
def audioGridRenderFrames (ready : Bool) (frames : ℕ) : ℕ :=
  if ready = false then 0 else frames

/-!
## requestAnimationFrame bookkeeping (C9)

An instrumented scheduler: `requestAnimationFrame` hands out consecutive ids
and records them; firing a callback consumes its registration (callbacks are
one-shot) and runs the callback body; `cancelAnimationFrame` removes an id.
-/

structure RafState where
  nextId : ℕ
  registered : List ℕ
deriving DecidableEq, Repr

def rafRequest (st : RafState) : ℕ × RafState :=
  (st.nextId, ⟨st.nextId + 1, st.registered ++ [st.nextId]⟩)

def rafCancel (st : RafState) (i : ℕ) : RafState :=
  ⟨st.nextId, st.registered.erase i⟩

/-- One frame of the VR head-tracking loop (lines 1259-1262): the fired
registration is consumed, the callback re-registers itself and the returned
id is DISCARDED (only the id of the very first registration was stored). -/
def headTrackingFire (st : RafState) (firedId : ℕ) : RafState :=
  (rafRequest ⟨st.nextId, st.registered.erase firedId⟩).2

/-- Mount the head-tracking loop, let `frames` animation frames fire, then run
the unmount cleanup, which cancels only the stored (first) id
(lines 1259-1265). -/
def headTrackingScenario (frames : ℕ) : RafState :=
  let p := rafRequest ⟨0, []⟩
  let rec loop : ℕ → RafState → RafState
    | 0, st => st
    | k + 1, st => loop k (headTrackingFire st (st.nextId - 1))
  rafCancel (loop frames p.2) p.1

/-- One frame of the ParticlesCanvas / AudioReactiveGrid animation loops
(lines 193-252 and 898-970): the fired registration is consumed and the
callback re-registers itself, STORING the new id in `animationRef.current`.
Returns the new stored id with the scheduler state. -/
def trackedFire (st : RafState) (firedId : ℕ) : ℕ × RafState :=
  rafRequest ⟨st.nextId, st.registered.erase firedId⟩

def runTrackedLoop : ℕ → ℕ × RafState → ℕ × RafState
  | 0, cur => cur
  | k + 1, cur => runTrackedLoop k (trackedFire cur.2 cur.1)

/-- Mount one of the ref-tracked loops, let `frames` frames fire, then cancel
the stored id on unmount (lines 251-258 / 969-976). -/
def trackedLoopScenario (frames : ℕ) : RafState :=
  let p := rafRequest ⟨0, []⟩
  let q := runTrackedLoop frames p
  rafCancel q.2 q.1

/-!
## Simulated audio level (C10)
-/

/-- `simulateAudio` (lines 694-712): three summed sine components plus scaled
noise, clamped into [0,1] before being stored (and later passed verbatim to
the audioLevel uniform at line 958).  `sinq` is the Math.sin oracle and `rnd` a
Math.random() sample. -/
def simulatedAudioLevel (sinq : ℚ → ℚ) (time rnd : ℚ) : ℚ :=
  let primaryWave := sinq (time * 0.5) * 0.3
  let secondaryWave := sinq (time * 1.3) * 0.15
  let fastWave := sinq (time * 3.7) * 0.05
  let noise := rnd * 0.1
  let simulatedLevel := (primaryWave + secondaryWave + fastWave + 0.5) * 0.5 + noise * 0.2
  Max.max 0 (Min.min 1 simulatedLevel)

/-- Pointwise order on frames: time and scroll both non-decreasing. -/
def le2 (a b : ℚ × ℚ) : Prop := a.1 ≤ b.1 ∧ a.2 ≤ b.2

/-- Stage sequence emitted by a trace started from an arbitrary state. -/
def stagesFrom (st : FallState) (events : List (ℚ × ℚ)) : List ℕ :=
  (runTrace st events).map (fun e => calculateStage e.2.2 e.1.canExpand)

set_option maxHeartbeats 1000000 in
lemma calculateStage_mono {s1 s2 : ℚ} {ce1 ce2 : Bool}
    (hs : s1 ≤ s2) (hce : ce1 = true → ce2 = true) :
    calculateStage s1 ce1 ≤ calculateStage s2 ce2 := by
  simp only [calculateStage, ANIMATION_RANGES.initialToAbsorb,
    ANIMATION_RANGES.absorbToRelease, ANIMATION_RANGES.releaseToFloat,
    ANIMATION_RANGES.floatToFall, ANIMATION_RANGES.fallToExpand,
    ANIMATION_RANGES.expandToFinal]
  split_ifs
  all_goals try omega
  all_goals exfalso
  all_goals simp only [not_or, not_lt, Bool.not_eq_false] at *
  all_goals try casesm* _ ∧ _, _ ∨ _
  all_goals first
    | linarith
    | simp_all

lemma calculateStage_eq_five {s : ℚ} {ce : Bool}
    (h : calculateStage s ce = 5) : ce = true := by
  by_contra hfalse
  simp only [Bool.not_eq_true] at hfalse
  subst hfalse
  simp only [calculateStage] at h
  split_ifs at h <;> simp_all

lemma firePending_canExpand_spec {st : FallState} {tcur now : ℚ}
    (h2 : ∀ tf ∈ st.pending, ∃ t, st.fallStartTime = some t ∧ tf = t + 1000)
    (h3 : st.canExpand = true → ∃ t, st.fallStartTime = some t ∧ t + 1000 ≤ tcur)
    (ht : tcur ≤ now)
    (hce : (firePending st now).canExpand = true) :
    ∃ t, st.fallStartTime = some t ∧ t + 1000 ≤ now := by
  have hor : st.canExpand = true ∨
      ∃ tf ∈ st.pending, tf ≤ now := by
    simp only [firePending, Bool.or_eq_true, List.any_eq_true,
      decide_eq_true_eq] at hce
    exact hce
  rcases hor with h | ⟨tf, htf, hle⟩
  · obtain ⟨t, hsome, hdl⟩ := h3 h
    exact ⟨t, hsome, le_trans hdl ht⟩
  · obtain ⟨t, hsome, rfl⟩ := h2 tf htf
    exact ⟨t, hsome, hle⟩

lemma fallInv_step {st : FallState} {tcur scur now s : ℚ}
    (hInv : FallInv st tcur scur) (ht : tcur ≤ now) (hs : scur ≤ s) :
    FallInv (stepFrame st now s) now s := by
  obtain ⟨h1, h2, h3⟩ := hInv
  have hfix : (firePending st now).fallStartTime = st.fallStartTime := rfl
  have hpend : (firePending st now).pending
      = st.pending.filter (fun tf => decide (now < tf)) := rfl
  unfold stepFrame fallTimerEffect
  split_ifs with hset hclr
  · -- timer set to `now`
    have hnone : st.fallStartTime = none := hset.2
    have hpe : st.pending = [] := by
      cases hp : st.pending with
      | nil => rfl
      | cons a l =>
          obtain ⟨t, hsome, _⟩ := h2 a (by rw [hp]; exact List.mem_cons_self a l)
          rw [hnone] at hsome
          exact absurd hsome (by simp)
    refine ⟨?_, ?_, ?_⟩
    · intro t htEq
      simp only at htEq
      obtain rfl : now = t := by simpa using htEq
      exact ⟨le_refl _, hset.1⟩
    · intro tf htf
      simp only [hpend, hpe, List.filter_nil, List.nil_append, List.mem_singleton] at htf
      exact ⟨now, rfl, htf⟩
    · intro hce
      obtain ⟨t, hsome, _⟩ := firePending_canExpand_spec h2 h3 ht hce
      rw [hnone] at hsome
      exact absurd hsome (by simp)
  · -- clear branch is unreachable: the timer being set forces scur ≥ threshold
    exfalso
    have hne : st.fallStartTime ≠ none := hclr.2
    obtain ⟨t, hsome⟩ := Option.ne_none_iff_exists'.mp hne
    obtain ⟨-, hthr⟩ := h1 t hsome
    have := hclr.1
    linarith
  · -- untouched
    refine ⟨?_, ?_, ?_⟩
    · intro t hsome
      obtain ⟨hle, hthr⟩ := h1 t (by simpa [hfix] using hsome)
      exact ⟨le_trans hle ht, le_trans hthr hs⟩
    · intro tf htf
      rw [hpend] at htf
      have htf' := List.mem_of_mem_filter htf
      obtain ⟨t, hsome, rfl⟩ := h2 tf htf'
      exact ⟨t, by simpa [hfix] using hsome, rfl⟩
    · intro hce
      obtain ⟨t, hsome, hdl⟩ := firePending_canExpand_spec h2 h3 ht hce
      exact ⟨t, by simpa [hfix] using hsome, hdl⟩

lemma canExpand_mono {st : FallState} {tcur scur now s : ℚ}
    (hInv : FallInv st tcur scur) (ht : tcur ≤ now) (hs : scur ≤ s)
    (hce : st.canExpand = true) : (stepFrame st now s).canExpand = true := by
  obtain ⟨h1, h2, h3⟩ := hInv
  have hG : (firePending st now).canExpand = true := by
    simp [firePending, hce]
  unfold stepFrame fallTimerEffect
  split_ifs with hset hclr
  · exact hG
  · exfalso
    have hne : st.fallStartTime ≠ none := hclr.2
    obtain ⟨t, hsome⟩ := Option.ne_none_iff_exists'.mp hne
    obtain ⟨-, hthr⟩ := h1 t hsome
    have := hclr.1
    linarith
  · exact hG

lemma fallInv_init (tcur scur : ℚ) : FallInv initFallState tcur scur := by
  refine ⟨?_, ?_, ?_⟩ <;> simp [initFallState]

lemma runTrace_chain (events : List (ℚ × ℚ)) :
    ∀ (st : FallState) (tcur scur : ℚ), FallInv st tcur scur →
    List.Chain le2 (tcur, scur) events →
    List.Chain (· ≤ ·) (calculateStage scur st.canExpand) (stagesFrom st events) ∧
    ∀ e ∈ runTrace st events, calculateStage e.2.2 e.1.canExpand = 5 →
      ∃ t, e.1.fallStartTime = some t ∧ t + 1000 ≤ e.2.1 := by
  induction events with
  | nil =>
      intro st tcur scur _ _
      exact ⟨List.Chain.nil, by simp [runTrace]⟩
  | cons ev rest ih =>
      intro st tcur scur hInv hchain
      obtain ⟨now, s⟩ := ev
      rw [List.chain_cons] at hchain
      obtain ⟨⟨ht, hs⟩, hrest⟩ := hchain
      have hInv' : FallInv (stepFrame st now s) now s := fallInv_step hInv ht hs
      have hmono : calculateStage scur st.canExpand ≤
          calculateStage s (stepFrame st now s).canExpand :=
        calculateStage_mono hs (fun h => canExpand_mono hInv ht hs h)
      obtain ⟨ihchain, ihgate⟩ := ih (stepFrame st now s) now s hInv' hrest
      constructor
      · simp only [stagesFrom, runTrace, List.map_cons]
        exact List.Chain.cons hmono ihchain
      · intro e he hfive
        simp only [runTrace, List.mem_cons] at he
        rcases he with rfl | he
        · exact hInv'.2.2 (calculateStage_eq_five hfive)
        · exact ihgate e he hfive

/-- C1: for every frame trace whose wall-clock times and scroll values are both
non-decreasing (in particular any scroll sequence monotonically increasing from
0 to 1), the emitted stage codes (0 Initial < 1 Absorb < 2 Release < 3 Float <
4 Fall < 5 Expand < 6 Final) form a non-decreasing sequence, and whenever the
Expand stage (5) is emitted at a frame, the fall timer is set and was started
at least 1000ms of wall-clock time before that frame, even if the scroll value
already exceeds the Fall range. -/
theorem stage_sequence_monotone_expand_gated
    (events : List (ℚ × ℚ))
    (hmono : events.Chain' (fun a b => a.1 ≤ b.1 ∧ a.2 ≤ b.2)) :
    (stagesOf events).Chain' (· ≤ ·) ∧
    ∀ e ∈ runTrace initFallState events,
      calculateStage e.2.2 e.1.canExpand = 5 →
      ∃ t, e.1.fallStartTime = some t ∧ t + 1000 ≤ e.2.1 := by
  cases events with
  | nil => exact ⟨List.chain'_nil, by simp [runTrace]⟩
  | cons ev rest =>
      have hrest : List.Chain le2 ev rest := hmono
      have hchain : List.Chain le2 (ev.1, ev.2) (ev :: rest) :=
        List.chain_cons.mpr ⟨⟨le_refl _, le_refl _⟩, hrest⟩
      obtain ⟨hch, hgate⟩ :=
        runTrace_chain (ev :: rest) initFallState ev.1 ev.2
          (fallInv_init ev.1 ev.2) hchain
      refine ⟨?_, hgate⟩
      have hEq : stagesOf (ev :: rest) = stagesFrom initFallState (ev :: rest) := rfl
      rw [hEq]
      exact (List.chain_cons.mp hch).2

/-- Witness for C1 on a concrete monotone trace reaching the Expand stage. -/
theorem stage_sequence_monotone_expand_gated_witness :
    (stagesOf [(0, 0), (500, 0.4), (2000, 0.6)]).Chain' (· ≤ ·) ∧
    ∀ e ∈ runTrace initFallState [(0, 0), (500, 0.4), (2000, 0.6)],
      calculateStage e.2.2 e.1.canExpand = 5 →
      ∃ t, e.1.fallStartTime = some t ∧ t + 1000 ≤ e.2.1 :=
  stage_sequence_monotone_expand_gated [(0, 0), (500, 0.4), (2000, 0.6)]
    (by norm_num [List.chain'_cons])

/-- C2 counterexample: with scrollRatio 0.50 and the fall timer started 1200ms
earlier (gate satisfied), the classifier still returns Fall (4), not Expand
(5): the Expand stage additionally requires scrollRatio ≥ 0.55. -/
theorem classify_half_gate_counterexample :
    (stagesOf [(0, 0.5), (1200, 0.5)])[1]? = some 4 ∧
    (stagesOf [(0, 0.5), (1200, 0.5)])[1]? ≠ some 5 := by
  have h : stagesOf [(0, 0.5), (1200, 0.5)] = [4, 4] := by
    norm_num [stagesOf, runTrace, stepFrame, firePending, fallTimerEffect,
      calculateStage, initFallState, ANIMATION_RANGES.initialToAbsorb,
      ANIMATION_RANGES.absorbToRelease, ANIMATION_RANGES.releaseToFloat,
      ANIMATION_RANGES.floatToFall, ANIMATION_RANGES.fallToExpand,
      ANIMATION_RANGES.expandToFinal]
  rw [h]
  norm_num

/-- C2 (amended): at scrollRatio 0.50 the classifier returns Fall both before
the gate (elapsed < 1000ms, including 0; fall sub-progress capped at 0.95) and
after it (elapsed ≥ 1000ms; sub-progress no longer capped, reaching 1), because
Expand requires scrollRatio ≥ 0.55; with the gate satisfied and scrollRatio
0.56 the classifier does return Expand. -/
theorem classify_half_amended (t1 t2 : ℚ)
    (h10 : 0 ≤ t1) (h1lt : t1 < 1000) (h2ge : 1000 ≤ t2) :
    stagesOf [(0, 0.5), (t1, 0.5)] = [4, 4] ∧
    displayFallProgress 0.5 false = 0.95 ∧
    stagesOf [(0, 0.5), (t2, 0.5)] = [4, 4] ∧
    displayFallProgress 0.5 true = 1 ∧
    stagesOf [(0, 0.5), (t2, 0.56)] = [4, 5] := by
  have hn1 : ¬((1000 : ℚ) ≤ t1) := by linarith
  refine ⟨?_, ?_, ?_, ?_, ?_⟩ <;>
    norm_num [stagesOf, runTrace, stepFrame, firePending, fallTimerEffect,
      calculateStage, displayFallProgress, normalizeProgress, initFallState,
      hn1, h2ge, ANIMATION_RANGES.initialToAbsorb,
      ANIMATION_RANGES.absorbToRelease, ANIMATION_RANGES.releaseToFloat,
      ANIMATION_RANGES.floatToFall, ANIMATION_RANGES.fallToExpand,
      ANIMATION_RANGES.expandToFinal]
  all_goals simp

/-- Witness for the amended C2 at elapsed times 500ms and 1200ms. -/
theorem classify_half_amended_witness :
    stagesOf [(0, 0.5), (500, 0.5)] = [4, 4] ∧
    displayFallProgress 0.5 false = 0.95 ∧
    stagesOf [(0, 0.5), (1200, 0.5)] = [4, 4] ∧
    displayFallProgress 0.5 true = 1 ∧
    stagesOf [(0, 0.5), (1200, 0.56)] = [4, 5] :=
  classify_half_amended 500 1200 (by norm_num) (by norm_num) (by norm_num)

/-- C3 counterexample: the fall timer is started at scroll 0.5, then the scroll
drops to 0.4 — strictly below the Fall-stage lower threshold 0.45
(`fallToExpand.1`) — within 1000ms, yet the fall timer is NOT cleared (it still
records start time 0): the reset only happens below 0.35. -/
theorem fall_timer_not_cleared_counterexample :
    ((runTrace initFallState [(0, 0.5), (500, 0.4)])[1]?).map
        (fun e => e.1.fallStartTime) = some (some 0) ∧
    (0.4 : ℚ) < ANIMATION_RANGES.fallToExpand.1 ∧
    (500 : ℚ) - 0 < 1000 := by
  refine ⟨?_, by norm_num [ANIMATION_RANGES.fallToExpand], by norm_num⟩
  norm_num [runTrace, stepFrame, firePending, fallTimerEffect, initFallState,
    ANIMATION_RANGES.floatToFall]
  simp

/-- C3 (amended): the fall timer is cleared and the expand permission revoked
exactly when the scroll drops below the floatToFall lower bound 0.35 (not the
Fall-stage lower bound 0.45); moreover, because the pending
`checkFallDuration` timeout of the earlier entry is never cancelled, a
re-entry does NOT always require a fresh full 1000ms dwell: in the concrete
trace below the timer is cleared at 500ms, restarted at 600ms, and Expand is
already emitted at 1100ms — 500ms after the fresh start — because the stale
timeout from the first entry fired. -/
theorem fall_timer_clear_amended (st : FallState) (now s : ℚ)
    (hlow : s < ANIMATION_RANGES.floatToFall.1) (hsome : st.fallStartTime ≠ none) :
    ((stepFrame st now s).fallStartTime = none ∧
      (stepFrame st now s).canExpand = false) ∧
    stagesOf [(0, 0.4), (500, 0.3), (600, 0.4), (1100, 0.6)] = [3, 2, 3, 5] ∧
    ((runTrace initFallState [(0, 0.4), (500, 0.3), (600, 0.4), (1100, 0.6)])[3]?).map
        (fun e => e.1.fallStartTime) = some (some 600) ∧
    (1100 : ℚ) - 600 < 1000 := by
  refine ⟨?_, ?_, ?_, by norm_num⟩
  · unfold stepFrame fallTimerEffect
    split_ifs with hset hclr
    · exact absurd hset.2 hsome
    · exact ⟨rfl, rfl⟩
    · exact absurd ⟨hlow, hsome⟩ hclr
  · norm_num [stagesOf, runTrace, stepFrame, firePending, fallTimerEffect,
      calculateStage, initFallState, ANIMATION_RANGES.initialToAbsorb,
      ANIMATION_RANGES.absorbToRelease, ANIMATION_RANGES.releaseToFloat,
      ANIMATION_RANGES.floatToFall, ANIMATION_RANGES.fallToExpand,
      ANIMATION_RANGES.expandToFinal]
    simp
    norm_num
  · norm_num [runTrace, stepFrame, firePending, fallTimerEffect, initFallState,
      ANIMATION_RANGES.floatToFall]
    simp

/-- Witness for the amended C3 with a concrete state whose timer is set. -/
theorem fall_timer_clear_amended_witness :
    ((stepFrame ⟨some 0, false, []⟩ 10 0.3).fallStartTime = none ∧
      (stepFrame ⟨some 0, false, []⟩ 10 0.3).canExpand = false) ∧
    stagesOf [(0, 0.4), (500, 0.3), (600, 0.4), (1100, 0.6)] = [3, 2, 3, 5] ∧
    ((runTrace initFallState [(0, 0.4), (500, 0.3), (600, 0.4), (1100, 0.6)])[3]?).map
        (fun e => e.1.fallStartTime) = some (some 600) ∧
    (1100 : ℚ) - 600 < 1000 :=
  fall_timer_clear_amended ⟨some 0, false, []⟩ 10 0.3
    (by norm_num [ANIMATION_RANGES.floatToFall]) (by simp)

/-- C4 counterexample: at scroll 0.4 the classifier reports Float (3), a stage
strictly earlier than Fall (4), yet the fall timer has been set (to time 0):
the timer is set at the floatToFall lower bound 0.35, during Float. -/
theorem fall_timer_set_during_float_counterexample :
    (stagesOf [(0, 0.4)])[0]? = some 3 ∧ (3 : ℕ) < 4 ∧
    ((runTrace initFallState [(0, 0.4)])[0]?).map
        (fun e => e.1.fallStartTime) = some (some 0) := by
  refine ⟨?_, by norm_num, ?_⟩ <;>
    norm_num [stagesOf, runTrace, stepFrame, firePending, fallTimerEffect,
      calculateStage, initFallState, ANIMATION_RANGES.initialToAbsorb,
      ANIMATION_RANGES.absorbToRelease, ANIMATION_RANGES.releaseToFloat,
      ANIMATION_RANGES.floatToFall, ANIMATION_RANGES.fallToExpand,
      ANIMATION_RANGES.expandToFinal]

lemma stepFrame_small_fixed {now s : ℚ}
    (hs : s < ANIMATION_RANGES.floatToFall.1) :
    stepFrame initFallState now s = initFallState := by
  unfold stepFrame fallTimerEffect firePending initFallState
  norm_num
  exact hs

lemma calculateStage_small {s : ℚ} (hs : s < ANIMATION_RANGES.floatToFall.1)
    (ce : Bool) : calculateStage s ce ≤ 2 := by
  simp only [calculateStage, ANIMATION_RANGES.initialToAbsorb,
    ANIMATION_RANGES.absorbToRelease, ANIMATION_RANGES.releaseToFloat,
    ANIMATION_RANGES.floatToFall, ANIMATION_RANGES.fallToExpand,
    ANIMATION_RANGES.expandToFinal] at *
  split_ifs <;> first | omega | linarith

/-- C4 (amended): the fall timer remains unset as long as every observed
scroll value stays below the floatToFall lower bound 0.35 — i.e. through the
stages Initial, Absorb and Release (codes ≤ 2) — and it is set (to the current
time) at the first frame whose scroll reaches 0.35, which is still during the
Float stage, before the Fall stage begins. -/
theorem fall_timer_amended (events : List (ℚ × ℚ))
    (hsmall : ∀ e ∈ events, e.2 < ANIMATION_RANGES.floatToFall.1)
    (st : FallState) (now s : ℚ) (hnone : st.fallStartTime = none)
    (hge : ANIMATION_RANGES.floatToFall.1 ≤ s) :
    (∀ x ∈ runTrace initFallState events,
      x.1.fallStartTime = none ∧ calculateStage x.2.2 x.1.canExpand ≤ 2) ∧
    (stepFrame st now s).fallStartTime = some now := by
  constructor
  · induction events with
    | nil => simp [runTrace]
    | cons ev rest ih =>
        obtain ⟨tnow, sev⟩ := ev
        have hsev : sev < ANIMATION_RANGES.floatToFall.1 :=
          hsmall (tnow, sev) (List.mem_cons_self _ _)
        intro x hx
        rw [runTrace] at hx
        simp only [stepFrame_small_fixed hsev, List.mem_cons] at hx
        rcases hx with rfl | hx
        · exact ⟨rfl, calculateStage_small hsev _⟩
        · exact ih (fun e he => hsmall e (List.mem_cons_of_mem _ he)) x hx
  · unfold stepFrame fallTimerEffect
    rw [if_pos ⟨hge, hnone⟩]

/-- Witness for the amended C4 on a concrete low-scroll trace and a concrete
threshold crossing. -/
theorem fall_timer_amended_witness :
    (∀ x ∈ runTrace initFallState [(0, 0.1), (5, 0.3)],
      x.1.fallStartTime = none ∧ calculateStage x.2.2 x.1.canExpand ≤ 2) ∧
    (stepFrame initFallState 7 0.45).fallStartTime = some 7 :=
  fall_timer_amended [(0, 0.1), (5, 0.3)]
    (by intro e he; fin_cases he <;> norm_num [ANIMATION_RANGES.floatToFall])
    initFallState 7 0.45 rfl (by norm_num [ANIMATION_RANGES.floatToFall])

lemma wrapCoord_mem {limit : ℚ} (hb : 0 ≤ limit) (v : ℚ) :
    0 ≤ wrapCoord limit v ∧ wrapCoord limit v ≤ limit := by
  simp only [wrapCoord]
  split_ifs <;> constructor <;> linarith

/-- C5 counterexample: a particle at x = -5 (entering from the left edge) on a
100x100 canvas, with zero velocity and the mouse 1000px away (dist = sqrt of
1000000, an exact value), is wrapped to x = 100 — EQUAL to the canvas width —
so the claimed half-open bound x < width fails after the boundary step. -/
theorem particle_wraps_to_boundary_counterexample :
    (updateParticle 995 50 1000 0 100 100 ⟨-5, 50, 2, 0, 0, 0.3, 0⟩).x = 100 ∧
    ¬((updateParticle 995 50 1000 0 100 100 ⟨-5, 50, 2, 0, 0, 0.3, 0⟩).x < 100) := by
  norm_num [updateParticle, wrapCoord]

/-- C5 (amended): after the boundary-check step every particle position lies
in the CLOSED box [0, width] x [0, height] (for any mouse position, distance
oracle value, scroll progress and prior particle state); a particle that
crossed the lower edge is placed exactly at the dimension, so the half-open
bound of the original claim is weakened to a closed one. -/
theorem particle_in_closed_box (mouseX mouseY dist scrollProgress w h : ℚ)
    (hw : 0 ≤ w) (hh : 0 ≤ h) (p : Particle) :
    0 ≤ (updateParticle mouseX mouseY dist scrollProgress w h p).x ∧
    (updateParticle mouseX mouseY dist scrollProgress w h p).x ≤ w ∧
    0 ≤ (updateParticle mouseX mouseY dist scrollProgress w h p).y ∧
    (updateParticle mouseX mouseY dist scrollProgress w h p).y ≤ h := by
  refine ⟨(wrapCoord_mem hw _).1, (wrapCoord_mem hw _).2,
    (wrapCoord_mem hh _).1, (wrapCoord_mem hh _).2⟩

/-- Witness for the amended C5 at a concrete particle and canvas. -/
theorem particle_in_closed_box_witness :
    0 ≤ (updateParticle 995 50 1000 0 100 100 ⟨-5, 50, 2, 0, 0, 0.3, 0⟩).x ∧
    (updateParticle 995 50 1000 0 100 100 ⟨-5, 50, 2, 0, 0, 0.3, 0⟩).x ≤ 100 ∧
    0 ≤ (updateParticle 995 50 1000 0 100 100 ⟨-5, 50, 2, 0, 0, 0.3, 0⟩).y ∧
    (updateParticle 995 50 1000 0 100 100 ⟨-5, 50, 2, 0, 0, 0.3, 0⟩).y ≤ 100 :=
  particle_in_closed_box 995 50 1000 0 100 100 (by norm_num) (by norm_num) _

/-- C6: during Expand/Final the square's background colour at eased progress
q in [0,1] is exactly (255*(1-q), 0, 0), and since easeOutQuint is monotone,
for raw progress values p1 ≤ p2 (in [0,1]) the red channel at p2 is at most
the red channel at p1, with green and blue identically 0. -/
theorem expand_color_monotone (p1 p2 : ℚ)
    (h0 : 0 ≤ p1) (h12 : p1 ≤ p2) (h1 : p2 ≤ 1) :
    (∀ q : ℚ, 0 ≤ q → q ≤ 1 →
      expandBackgroundColor q = (255 * (1 - q), 0, 0)) ∧
    (expandBackgroundColor (easeOutQuint p2)).1 ≤
      (expandBackgroundColor (easeOutQuint p1)).1 ∧
    (expandBackgroundColor (easeOutQuint p2)).2.1 = 0 ∧
    (expandBackgroundColor (easeOutQuint p2)).2.2 = 0 := by
  refine ⟨?_, ?_, rfl, rfl⟩
  · intro q hq0 hq1
    simp only [expandBackgroundColor]
    rw [max_eq_right (by linarith)]
  · have hmono : easeOutQuint p1 ≤ easeOutQuint p2 := by
      simp only [easeOutQuint]
      have h5 : (1 - p2) ^ 5 ≤ (1 - p1) ^ 5 :=
        pow_le_pow_left (by linarith) (by linarith) 5
      linarith
    simp only [expandBackgroundColor]
    exact max_le_max (le_refl 0) (by linarith)

/-- Witness for C6 at the endpoints of the progress interval. -/
theorem expand_color_monotone_witness :
    (∀ q : ℚ, 0 ≤ q → q ≤ 1 →
      expandBackgroundColor q = (255 * (1 - q), 0, 0)) ∧
    (expandBackgroundColor (easeOutQuint 1)).1 ≤
      (expandBackgroundColor (easeOutQuint 0)).1 ∧
    (expandBackgroundColor (easeOutQuint 1)).2.1 = 0 ∧
    (expandBackgroundColor (easeOutQuint 1)).2.2 = 0 :=
  expand_color_monotone 0 1 (by norm_num) (by norm_num) (by norm_num)

/-- C7 counterexample: the continuous-effects callback in the Fall stage is
NOT idempotent: with identical inputs (stage 4, timestamp 0, sine oracle
value 1) calling it twice on the same style yields a different rotation than
calling it once — it reads the current rotation back from the transform and
adds 0.15 degrees per call. -/
theorem animateEffects_fall_not_idempotent_counterexample :
    animateEffects (fun _ => 1) 0 4
        (animateEffects (fun _ => 1) 0 4
          ⟨64, 64, 0, 96, 220, 38, 38, SquareTransform.rotateDeg 0, 1, 0, 0, 0⟩) ≠
      animateEffects (fun _ => 1) 0 4
        ⟨64, 64, 0, 96, 220, 38, 38, SquareTransform.rotateDeg 0, 1, 0, 0, 0⟩ := by
  norm_num [animateEffects]

set_option maxHeartbeats 2000000 in
/-- C7 (amended): the main per-frame stage/style computation
(`calculateStages`) IS idempotent — re-evaluating it on its own output with
the same inputs (stage, scroll, previous scroll, timestamp, viewport, scale,
expand permission, sine oracles) reproduces the same styles, since every
branch writes absolute values; and the continuous-effects callback is
idempotent in the Float stage (it writes an absolute translateY).  The Fall
branch of the continuous-effects callback is the exception established by the
counterexample. -/
theorem transform_computation_idempotent
    (sinq sinPiMul : ℚ → ℚ)
    (now innerWidth innerHeight scale interpolatedScroll previousScrollProgress : ℚ)
    (canExpand : Bool) (animationStage : ℕ)
    (sq : SquareStyle) (sm : SmallLogoStyle) :
    (calculateStagesStyle sinq sinPiMul now innerWidth innerHeight scale
        interpolatedScroll previousScrollProgress canExpand animationStage
        (calculateStagesStyle sinq sinPiMul now innerWidth innerHeight scale
          interpolatedScroll previousScrollProgress canExpand animationStage sq sm).1
        (calculateStagesStyle sinq sinPiMul now innerWidth innerHeight scale
          interpolatedScroll previousScrollProgress canExpand animationStage sq sm).2
      = calculateStagesStyle sinq sinPiMul now innerWidth innerHeight scale
          interpolatedScroll previousScrollProgress canExpand animationStage sq sm) ∧
    animateEffects sinq now 3 (animateEffects sinq now 3 sq)
      = animateEffects sinq now 3 sq := by
  constructor
  · rcases animationStage with _|_|_|_|_|_|n
    · cases canExpand <;> norm_num [calculateStagesStyle]
    · cases canExpand <;> norm_num [calculateStagesStyle]
    · cases canExpand <;> norm_num [calculateStagesStyle]
    · cases canExpand <;> norm_num [calculateStagesStyle]
    · cases canExpand <;> norm_num [calculateStagesStyle]
    · cases canExpand <;> norm_num [calculateStagesStyle]
    · have hA : ¬(2 ≤ n + 6 ∧ n + 6 ≤ 5) := by omega
      have hB : 5 ≤ n + 6 := by omega
      have hC : ¬(n + 6 = 5) := by omega
      have hD : ¬(n + 6 = 4) := by omega
      have hE : ¬(n + 6 = 2 ∨ n + 6 = 3) := by omega
      have hF : ¬(n + 6 = 0) := by omega
      have hG : ¬(n + 6 = 1) := by omega
      have hH : ¬(n + 6 < 2) := by omega
      cases canExpand <;>
        simp only [calculateStagesStyle, hA, hB, hC, hD, hE, hF, hG, hH,
          if_true, if_false, ite_true, ite_false, and_true, and_false,
          if_neg, if_pos, not_false_eq_true, not_true_eq_false]
      all_goals simp
  · simp [animateEffects]

/-- C8: for every renderer, if its drawing context cannot be acquired the
setup/render path is a no-op: the particle field's animation loop issues no
draw commands when its 2D context is missing (for any canvas dimensions,
distance oracle and particle array) or when its canvas ref is missing; the
portal's `startSimulation` issues no canvas commands when the canvas or its
2D context is missing; and the WebGL initialisation of the audio grid stops
(after logging "WebGL not supported") leaving the renderer unready, so an
unready renderer draws nothing.  No path throws: every failure is an early
return, so the embedding is total and returns plain values. -/
theorem context_unavailable_noop (b c d e f m c2 : Bool) (w h : ℚ)
    (distOracle : Particle → Particle → ℚ) (ps : List Particle) :
    particlesAnimate true w h false distOracle ps = [] ∧
    particlesAnimate false w h c2 distOracle ps = [] ∧
    startSimulation true false m = [] ∧
    startSimulation false b m = [] ∧
    (webglInit false b c d e f).ready = false ∧
    (webglInit false b c d e f).logs = ["WebGL not supported"] ∧
    audioGridRenderFrames false 1000 = 0 := by
  refine ⟨?_, rfl, rfl, rfl, rfl, rfl, rfl⟩
  by_cases hw : w = 0
  · simp [particlesAnimate, hw]
  · by_cases hh : h = 0
    · simp [particlesAnimate, hh]
    · simp [particlesAnimate, hw, hh]

/-- C9 (code evaluated at the failing input): mounting the VR head-tracking
loop, letting ONE animation frame fire and then unmounting leaves a
registered animation-frame callback behind — the cleanup cancels only the
stored first id (0), while the callback's self-re-registration (id 1) was
discarded and remains registered.  The claim of zero remaining registrations
therefore fails on this loop. -/
theorem head_tracking_frame_leak :
    (headTrackingScenario 1).registered = [1] ∧
    (headTrackingScenario 1).registered ≠ [] := by
  constructor <;> decide

/-- For contrast with C9: the loops that store the latest id in
`animationRef.current` (particle field, audio grid) do leave zero registered
callbacks after unmount, for any number of frames. -/
theorem tracked_loops_clean_after_unmount (frames : ℕ) :
    (trackedLoopScenario frames).registered = [] := by
  have key : ∀ (k i : ℕ) (st : RafState), st.registered = [i] →
      (runTrackedLoop k (i, st)).2.registered = [(runTrackedLoop k (i, st)).1] := by
    intro k
    induction k with
    | zero => intro i st h; simpa [runTrackedLoop] using h
    | succ n ih =>
        intro i st h
        have hstep : (trackedFire st i).2.registered = [(trackedFire st i).1] := by
          simp [trackedFire, rafRequest, h]
        simpa [runTrackedLoop] using ih _ _ hstep
  have h0 : (rafRequest ⟨0, []⟩).2.registered = [(rafRequest ⟨0, []⟩).1] := by
    simp [rafRequest]
  have := key frames (rafRequest ⟨0, []⟩).1 (rafRequest ⟨0, []⟩).2 h0
  simp [trackedLoopScenario, rafCancel, this]

/-- C10: for every timestamp, noise sample and sine-oracle values, the
simulated audio level stored each frame (and passed verbatim as the
audioLevel uniform) lies in the closed interval [0,1], by the explicit clamp
Math.max(0, Math.min(1, level)). -/
theorem audio_level_clamped (sinq : ℚ → ℚ) (time rnd : ℚ) :
    0 ≤ simulatedAudioLevel sinq time rnd ∧ simulatedAudioLevel sinq time rnd ≤ 1 := by
  simp only [simulatedAudioLevel]
  exact ⟨le_max_left _ _, max_le (by norm_num) (min_le_left _ _)⟩
